import Mathlib

/-!
Shallow embedding of the ffmpeg-downloader repository (Python) in Lean 4.

Strings are modelled as lists of characters; the Python string operations
used by the code (split, strip, lower, substring containment, int()) are
embedded as executable functions on `List Char`.  Machine integers do not
occur: Python integers are unbounded, matching `Int`/`Nat`.
-/

namespace FfmpegDL

/-! ### Python string primitives -/

/-- Python `s.split(c)` for a one-character separator: keeps empty pieces. -/
def splitOnChar (c : Char) : List Char → List (List Char)
  | [] => [[]]
  | x :: xs =>
    let r := splitOnChar c xs
    if x = c then [] :: r
    else
      match r with
      | [] => [[x]]
      | h :: t => (x :: h) :: t

/-- Python `s.split(c, 1)` restricted to the case where the separator occurs:
returns the part before the first `c` and everything after it. -/
def splitFirst (c : Char) : List Char → Option (List Char × List Char)
  | [] => none
  | x :: xs =>
    if x = c then some ([], xs)
    else (splitFirst c xs).map (fun p => (x :: p.1, p.2))

/-- Python `s.strip()`: remove whitespace from both ends. -/
def stripWs (l : List Char) : List Char :=
  ((l.dropWhile Char.isWhitespace).reverse.dropWhile Char.isWhitespace).reverse

/-- Python `s.strip(c)` for a one-character argument. -/
def stripChar (c : Char) (l : List Char) : List Char :=
  ((l.dropWhile (· = c)).reverse.dropWhile (· = c)).reverse

/-- Python `s.lower()` (ASCII case folding, which covers every string the
code compares). -/
def pyLower (l : List Char) : List Char := l.map Char.toLower

/-- Python `needle in hay` for strings: substring containment. -/
def hasSub (needle : List Char) : List Char → Bool
  | [] => needle.isEmpty
  | x :: xs => needle.isPrefixOf (x :: xs) || hasSub needle xs

/-- Numeric value of a digit string. -/
def natOfDigits (l : List Char) : Nat :=
  l.foldl (fun a c => 10 * a + (c.toNat - 48)) 0

/-- Python `int(s)` on a string: optional surrounding whitespace, optional
sign, then a non-empty run of digits; anything else raises (`none`).
(Python also accepts underscore digit separators; the repository never
produces those.) -/
def pyInt (l : List Char) : Option Int :=
  let t := stripWs l
  match t with
  | '+' :: ds => if ds ≠ [] ∧ ds.all Char.isDigit then some (natOfDigits ds) else none
  | '-' :: ds => if ds ≠ [] ∧ ds.all Char.isDigit then some (-(natOfDigits ds : Int)) else none
  | ds => if ds ≠ [] ∧ ds.all Char.isDigit then some (natOfDigits ds) else none

/-- `re.search(r'(\d+)p', s)`: the leftmost maximal digit run that is
immediately followed by the character `p`; returns its numeric value.
`acc` carries the digit run currently being scanned. -/
def scanDigitsP (acc : Option Nat) : List Char → Option Nat
  | [] => none
  | c :: rest =>
    if c.isDigit then scanDigitsP (some ((acc.getD 0) * 10 + (c.toNat - 48))) rest
    else if c = 'p' then
      match acc with
      | some n => some n
      | none => scanDigitsP none rest
    else scanDigitsP none rest

/-- `re.search(r'p(\d+)', s)`: the digit run following the leftmost `p` that
is immediately followed by a digit; returns its numeric value. -/
def scanPDigits : List Char → Option Nat
  | [] => none
  | c :: rest =>
    if c = 'p' ∧ rest.head?.any Char.isDigit then
      some (natOfDigits (rest.takeWhile Char.isDigit))
    else scanPDigits rest

/-- `re.search(r'p\d+$', s) is not None`: the string ends in `p` followed by
at least one digit. -/
def endsWithPDigits (l : List Char) : Bool :=
  let rev := l.reverse
  !(rev.takeWhile Char.isDigit).isEmpty &&
    ((rev.dropWhile Char.isDigit).head? == some 'p')

/-! ### Data model: parsed HLS variants

One entry of the list built by `PlaylistParser.parse_master_playlist`
(`src/app/utils/playlist_parser.py`): a dict with keys
`url`, `bandwidth`, `resolution`, `framerate`, `codecs`, `name`. -/

structure Variant where
  url : String
  bandwidth : Int
  resolution : String
  framerate : String
  codecs : String
  name : String
deriving DecidableEq, Repr

/-! ### playlist_parser.py: parse_master_playlist -/

/-- The attribute dict built from one `#EXT-X-STREAM-INF:` line:
`line.split(',')`, keep the pieces containing `=`, split each once at `=`,
strip whitespace from the key and double quotes from the value.  Later
bindings of the same key overwrite earlier ones (Python dict), which
`dictFind` mirrors by taking the last binding. -/
def parseAttrs (line : List Char) : List (List Char × List Char) :=
  (splitOnChar ',' line).filterMap (fun attr =>
    match splitFirst '=' attr with
    | some (k, v) => some (stripWs k, stripChar '"' v)
    | none => none)

/-- Python `attrs[key]` lookup (`None` when absent): last binding wins. -/
def dictFind (attrs : List (List Char × List Char)) (key : List Char) :
    Option (List Char) :=
  ((attrs.filter (fun p => p.1 == key)).getLast?).map (·.2)

/-- Python `attrs.get(key, dflt)`. -/
def dictGetD (attrs : List (List Char × List Char)) (key dflt : List Char) :
    List Char :=
  (dictFind attrs key).getD dflt

/-- Build the `resolution_info` dict for one stream-inf block
(`parse_master_playlist`, body of the inner `if`): normalize the name to
carry the frame rate, and convert `BANDWIDTH` with `int()` — a `BANDWIDTH`
attribute that `int()` rejects raises, modelled as `none`. -/
def mkVariant (attrs : List (List Char × List Char)) (streamUrl : List Char) :
    Option Variant :=
  let baseName0 := dictGetD attrs "IVS-NAME".data (dictGetD attrs "STABLE-VARIANT-ID".data [])
  let framerate := dictGetD attrs "FRAME-RATE".data []
  let baseName :=
    if framerate ≠ [] ∧ baseName0 ≠ [] then
      let fpsNumeric :=
        if hasSub ['.'] framerate then (splitOnChar '.' framerate).headD []
        else framerate
      if endsWithPDigits baseName0 then baseName0 else baseName0 ++ fpsNumeric
    else baseName0
  let bw : Option Int :=
    match dictFind attrs "BANDWIDTH".data with
    | none => some 0
    | some s => pyInt s
  bw.map (fun b =>
    { url := ⟨streamUrl⟩
      bandwidth := b
      resolution := ⟨dictGetD attrs "RESOLUTION".data []⟩
      framerate := ⟨framerate⟩
      codecs := ⟨dictGetD attrs "CODECS".data []⟩
      name := ⟨baseName⟩ })

/-- The scanning loop of `parse_master_playlist`: walk the lines; at a
stripped line starting with `#EXT-X-STREAM-INF:` read the next line as the
stream URL and append a variant when that line exists, is non-empty after
stripping and does not start with `#`; otherwise the block contributes
nothing.  The index always advances by one, so a URL line is also examined
(and ignored) as a candidate header line, exactly as in the Python loop. -/
def parseBlocks : List (List Char) → Option (List Variant)
  | [] => some []
  | line :: rest =>
    let l := stripWs line
    if "#EXT-X-STREAM-INF:".data.isPrefixOf l then
      match rest.head? with
      | none => parseBlocks rest
      | some nxt =>
        let streamUrl := stripWs nxt
        if streamUrl ≠ [] ∧ ¬ (['#'].isPrefixOf streamUrl) then
          match mkVariant (parseAttrs l) streamUrl with
          | none => none
          | some v => (parseBlocks rest).map (v :: ·)
        else parseBlocks rest
    else parseBlocks rest

/-- `resolutions.sort(key=lambda x: x['bandwidth'], reverse=True)`:
descending by bandwidth.  Python's sort is stable; `List.insertionSort`
with a reflexive `≥` relation is the stable descending sort. -/
def bwGe (a b : Variant) : Prop := b.bandwidth ≤ a.bandwidth

instance : DecidableRel bwGe := fun _ _ => Int.decLe _ _

instance : IsTotal Variant bwGe := ⟨fun a b => (le_total a.bandwidth b.bandwidth).symm⟩

instance : IsTrans Variant bwGe := ⟨fun _ _ _ h1 h2 => le_trans h2 h1⟩

/-- `PlaylistParser.parse_master_playlist(content)`: split on newlines,
scan the blocks, sort by bandwidth descending.  `none` models the
`ValueError` a malformed `BANDWIDTH` attribute raises. -/
def parse_master_playlist (content : String) : Option (List Variant) :=
  (parseBlocks (splitOnChar '\n' content.data)).map (List.insertionSort bwGe)

/-! ### stream_matcher_mixin.py: _match_stream -/

/-- `get_resolution_height` (inner helper of `_match_stream`): height from
the `WxH` resolution attribute when it parses, else the digit run before a
`p` in the lowered name, else `bandwidth // 1000000` (Python floor
division). -/
def get_resolution_height (res : Variant) : Int :=
  let resolutionStr := res.resolution.data
  let nm := pyLower res.name.data
  let fromAttr : Option Int :=
    if hasSub ['x'] resolutionStr then pyInt ((splitOnChar 'x' resolutionStr).getD 1 [])
    else none
  match fromAttr with
  | some h => h
  | none =>
    match scanDigitsP none nm with
    | some n => (n : Int)
    | none => Int.fdiv res.bandwidth 1000000

/-- `get_framerate` (inner helper of `_match_stream`): the integer part of
the framerate attribute when it parses (`float(str(fr).split('.')[0])`;
the conversion is modelled for integer literals, the only shape the
comparison logic meets), else the digit run after a `p` in the lowered
name, else `0`. -/
def get_framerate (res : Variant) : Int :=
  let fr := res.framerate.data
  let fromAttr : Option Int :=
    if fr ≠ [] then pyInt ((splitOnChar '.' fr).headD []) else none
  match fromAttr with
  | some f => f
  | none =>
    match scanPDigits (pyLower res.name.data) with
    | some n => (n : Int)
    | none => 0

/-- The sort key `(get_resolution_height(x), get_framerate(x))`. -/
def streamKey (res : Variant) : Int × Int :=
  (get_resolution_height res, get_framerate res)

/-- Lexicographic `≤` on pairs of integers — how Python compares the sort
key tuples. -/
def lexLeInt (p q : Int × Int) : Prop := p.1 < q.1 ∨ (p.1 = q.1 ∧ p.2 ≤ q.2)

instance : DecidableRel lexLeInt := fun p q =>
  inferInstanceAs (Decidable (p.1 < q.1 ∨ (p.1 = q.1 ∧ p.2 ≤ q.2)))

theorem lexLeInt_refl (p : Int × Int) : lexLeInt p p := Or.inr ⟨rfl, le_refl _⟩

theorem lexLeInt_total (p q : Int × Int) : lexLeInt p q ∨ lexLeInt q p := by
  rcases lt_trichotomy p.1 q.1 with h | h | h
  · exact Or.inl (Or.inl h)
  · rcases le_total p.2 q.2 with h2 | h2
    · exact Or.inl (Or.inr ⟨h, h2⟩)
    · exact Or.inr (Or.inr ⟨h.symm, h2⟩)
  · exact Or.inr (Or.inl h)

theorem lexLeInt_trans {p q s : Int × Int} (h1 : lexLeInt p q) (h2 : lexLeInt q s) :
    lexLeInt p s := by
  rcases h1 with h1 | ⟨e1, l1⟩
  · rcases h2 with h2 | ⟨e2, _⟩
    · exact Or.inl (h1.trans h2)
    · exact Or.inl (e2 ▸ h1)
  · rcases h2 with h2 | ⟨e2, l2⟩
    · exact Or.inl (e1 ▸ h2)
    · exact Or.inr ⟨e1.trans e2, l1.trans l2⟩

/-- `sorted(resolutions, key=..., reverse=True)`: quality order, i.e. the
sort key of `a` is lexicographically at least that of `b`. -/
def qualityGe (a b : Variant) : Prop := lexLeInt (streamKey b) (streamKey a)

instance : DecidableRel qualityGe := fun a b =>
  inferInstanceAs (Decidable (lexLeInt (streamKey b) (streamKey a)))

instance : IsTotal Variant qualityGe := ⟨fun a b => (lexLeInt_total (streamKey a) (streamKey b)).symm⟩

instance : IsTrans Variant qualityGe := ⟨fun _ _ _ h1 h2 => lexLeInt_trans h2 h1⟩

/-- `sorted(res_candidates, key=lambda x: get_framerate(x), reverse=True)`:
framerate-descending order used by the resolution-only stage. -/
def frGe (a b : Variant) : Prop := get_framerate b ≤ get_framerate a

instance : DecidableRel frGe := fun _ _ => Int.decLe _ _

instance : IsTotal Variant frGe := ⟨fun a b => (le_total (get_framerate a) (get_framerate b)).symm⟩

instance : IsTrans Variant frGe := ⟨fun _ _ _ h1 h2 => le_trans h2 h1⟩

/-- Stage-1 candidate test: `abs(h - target_height) < 10 and
abs(f - target_fps) < 5` ("allow small tolerance"). -/
def exactMatchB (targetHeight fps : Int) (res : Variant) : Bool :=
  decide (|get_resolution_height res - targetHeight| < 10 ∧
          |get_framerate res - fps| < 5)

/-- Stage-2 candidate test: `abs(h - target_height) < 10`. -/
def heightMatchB (targetHeight : Int) (res : Variant) : Bool :=
  decide (|get_resolution_height res - targetHeight| < 10)

/-- Stage-3 candidate test: `h < target_height`. -/
def lowerMatchB (targetHeight : Int) (res : Variant) : Bool :=
  decide (get_resolution_height res < targetHeight)

/-- `target_fps`: set only when `self.framerate in ['60', '30']`
(`float(self.framerate)` on those strings). -/
def targetFpsOf (framerate : String) : Option Int :=
  if framerate = "60" ∨ framerate = "30" then pyInt framerate.data else none

/-- `StreamMatcherMixin._match_stream(self, resolutions)` with the instance
fields `self.resolution` and `self.framerate` passed explicitly.  The
cascade: source request → perfect (height and fps within tolerance) →
height-only (best fps) → next resolution down → highest available. -/
def _match_stream (resolution framerate : String) (resolutions : List Variant) :
    Option Variant :=
  if resolutions.isEmpty then none
  else
    let sortedStreams := List.insertionSort qualityGe resolutions
    let targetResStr := (pyLower resolution.data).filter (· ≠ 'p')
    if targetResStr = "source".data then sortedStreams.head?
    else
      let targetHeight := (pyInt targetResStr).getD 1080
      let perfect :=
        match targetFpsOf framerate with
        | some fps => sortedStreams.filter (exactMatchB targetHeight fps)
        | none => []
      match perfect.head? with
      | some r => some r
      | none =>
        let resCandidates := sortedStreams.filter (heightMatchB targetHeight)
        match (List.insertionSort frGe resCandidates).head? with
        | some r => some r
        | none =>
          let lowerCandidates := sortedStreams.filter (lowerMatchB targetHeight)
          match lowerCandidates.head? with
          | some r => some r
          | none => sortedStreams.head?

/-! ### network_monitor_mixin.py: stream classification and detection -/

/-- `NetworkMonitorMixin._is_video_stream(url, mime_type)`: accept playlist
URLs only.  Branch order follows the source: segment filter, provider API
pattern, playlist extension (with the ad/tracking exclusion), playlist in
path, playlist MIME type. -/
def _is_video_stream (url mimeType : String) : Bool :=
  let u := pyLower url.data
  if ".ts".data.isSuffixOf u || ".m4s".data.isSuffixOf u || hasSub "/segment/".data u then
    false
  else if hasSub "usher.ttvnw.net".data u && hasSub ".m3u8".data u then
    true
  else if (".m3u8".data.isSuffixOf u || hasSub ".m3u8?".data u) ||
          (".mpd".data.isSuffixOf u || hasSub ".mpd?".data u) then
    if hasSub "doubleclick".data u || hasSub "analytics".data u || hasSub "tracking".data u then
      false
    else true
  else if hasSub "playlist".data u && hasSub ".m3u8".data u then
    true
  else
    let m := pyLower mimeType.data
    if hasSub "application/vnd.apple.mpegurl".data m ||
       hasSub "application/dash+xml".data m ||
       hasSub "application/x-mpegurl".data m ||
       hasSub "vnd.apple.mpegurl".data m then
      true
    else false

/-- `NetworkMonitorMixin._get_stream_type(url)`. -/
def _get_stream_type (url : String) : String :=
  let u := pyLower url.data
  if hasSub ".m3u8".data u then "HLS"
  else if hasSub ".mpd".data u then "DASH"
  else if hasSub ".mp4".data u then "MP4"
  else "UNKNOWN"

/-- The `stream_info` dict built by `_add_detected_stream` (the timestamp
plays no role in the detection handler). -/
structure StreamInfo where
  url : String
  type : String
  mime_type : String
deriving DecidableEq, Repr

/-- What `_handle_stream_detection` does with a detected stream: either
hand the fetched manifest to `_process_master_playlist`, or degrade to
`_process_single_stream` with an unparsed single-stream entry. -/
inductive DetectAction where
  | master (url : String) (content : String)
  | single (entry : Variant)
deriving DecidableEq, Repr

/-- `StreamParserMixin._process_single_stream`: the degraded single-stream
entry (bandwidth 0, empty resolution/framerate/codecs, name = stream
type). -/
def _process_single_stream (streamUrl : String) (si : StreamInfo) : Variant :=
  { url := streamUrl
    bandwidth := 0
    resolution := ""
    framerate := ""
    codecs := ""
    name := si.type }

/-- `NetworkMonitorMixin._handle_stream_detection`: for an `.m3u8` URL
fetch the manifest (`fetched = none` models a fetch that returned `None`:
non-200 status, timeout or exception) and treat it as a master playlist
only when the fetch succeeded with a non-empty body containing
`#EXT-X-STREAM-INF:`; in every other case fall back to the single-stream
path.  The function is total: no branch raises. -/
def _handle_stream_detection (si : StreamInfo) (fetched : Option String) :
    DetectAction :=
  if hasSub ".m3u8".data (pyLower si.url.data) then
    match fetched with
    | some content =>
      if content ≠ "" ∧ hasSub "#EXT-X-STREAM-INF:".data content.data then
        DetectAction.master si.url content
      else DetectAction.single (_process_single_stream si.url si)
    | none => DetectAction.single (_process_single_stream si.url si)
  else DetectAction.single (_process_single_stream si.url si)

/-! ### scheduler.py

Timestamps are modelled in whole minutes (`Int`); a `datetime` value is a
`(day, time-of-day)` pair with `0 ≤ tod < 1440` carried as hypotheses, and
the ISO strings stored in `next_check` are modelled by the total-minute
value they denote.  The 5–8 minute uniform random delay of
`_update_next_check` enters as an explicit parameter `delta`. -/

inductive SchedStatus where
  | pending
  | active
  | completed
  | download_started
deriving DecidableEq, Repr

/-- `now >= datetime.fromisoformat(next_check)` with a missing/empty
`next_check` counting as due (`not next_check or now >= ...`). -/
def due (nc : Option Int) (now : Int) : Prop :=
  match nc with
  | none => True
  | some c => c ≤ now

instance : ∀ nc now, Decidable (due nc now) := fun nc now =>
  match nc with
  | none => inferInstanceAs (Decidable True)
  | some c => Int.decLe c now

/-- A non-daily schedule dict: the fields `_check_schedules` reads. -/
structure Sched where
  status : SchedStatus
  next_check : Option Int
  start_time : Int
  end_time : Int
  repeatWeekly : Bool
deriving DecidableEq, Repr

/-- The value `_update_next_check` stores for a non-daily schedule:
window start before the window, `now + delta` clamped to the window end
inside it (`delta` is the drawn 5–8 minute delay), nothing after it. -/
def nextCheckRegular (s : Sched) (now delta : Int) : Option Int :=
  if now < s.start_time then some s.start_time
  else if s.start_time ≤ now ∧ now ≤ s.end_time then
    some (min (now + delta) s.end_time)
  else none

/-- `_update_next_check` for a non-daily schedule: only `next_check`
changes. -/
def _update_next_check_regular (s : Sched) (now delta : Int) : Sched :=
  { s with next_check := nextCheckRegular s now delta }

/-- `_reschedule_next_week`. -/
def _reschedule_next_week (s : Sched) (now delta : Int) : Sched :=
  _update_next_check_regular
    { s with
        start_time := s.start_time + 7 * 1440
        end_time := s.end_time + 7 * 1440
        status := SchedStatus.pending }
    now delta

/-- One evaluation of the non-daily branch of `_check_schedules` for one
schedule.  The returned `Bool` records whether `_perform_check` spawned a
worker; `_perform_check` starts the worker thread and immediately calls
`_update_next_check`, which this models as one atomic effect. -/
def _check_schedule_regular (s : Sched) (now delta : Int) : Sched × Bool :=
  if s.status = SchedStatus.completed then (s, false)
  else if s.end_time < now then
    if s.repeatWeekly then (_reschedule_next_week s now delta, false)
    else if s.status ≠ SchedStatus.download_started then
      ({ s with status := SchedStatus.completed }, false)
    else (s, false)
  else if s.start_time ≤ now ∧ now ≤ s.end_time then
    if s.status = SchedStatus.download_started then (s, false)
    else
      let wasPending := s.status = SchedStatus.pending
      let s1 := { s with status := SchedStatus.active }
      if wasPending ∨ due s1.next_check now then
        (_update_next_check_regular s1 now delta, true)
      else (s1, false)
  else
    let s1 := { s with status := SchedStatus.pending }
    if s1.next_check ≠ some s.start_time then
      (_update_next_check_regular s1 now delta, false)
    else (s1, false)

/-- The update `_run_browser_check_task` performs on the schedule when the
worker observes that a download started. -/
def workerReportDownload (s : Sched) : Sched :=
  { s with status := SchedStatus.download_started, next_check := none }

/-- A `datetime` value: calendar day and minute of the day. -/
structure DateTime where
  day : Int
  tod : Int
deriving DecidableEq, Repr

/-- Total minutes denoted by a `datetime` value; `datetime.combine(d, t)`
is `d * 1440 + t` and all datetime comparisons compare this value. -/
def DateTime.toMin (t : DateTime) : Int := t.day * 1440 + t.tod

/-- A daily schedule dict: `start_time`/`end_time` are `"HH:MM"` strings,
modelled by the minute-of-day they denote. -/
structure DailySched where
  status : SchedStatus
  next_check : Option Int
  last_check : Option Int
  startM : Int
  endM : Int
deriving DecidableEq, Repr

/-- The window anchoring shared by `_check_daily_schedule` and the daily
branch of `_update_next_check`: today's window, unless the window spans
midnight (`end < start` as times of day), in which case an evaluation
before the start time anchors to yesterday's start through today's end,
and one at or after it extends today's window into tomorrow. -/
def dailyWindow (startM endM : Int) (now : DateTime) : Int × Int :=
  let startDt := now.day * 1440 + startM
  let endDt := now.day * 1440 + endM
  if endM < startM then
    if now.tod < startM then ((now.day - 1) * 1440 + startM, now.day * 1440 + endM)
    else (startDt, endDt + 1440)
  else (startDt, endDt)

/-- The value the daily branch of `_update_next_check` stores: window
start before the window; `now + delta` clamped to the window end inside
it; after the window, today's start when the window spans midnight and the
time of day is still before the start time, else tomorrow's start. -/
def nextCheckDaily (s : DailySched) (now : DateTime) (delta : Int) : Int :=
  let w := dailyWindow s.startM s.endM now
  let nowM := now.toMin
  if nowM < w.1 then w.1
  else if w.1 ≤ nowM ∧ nowM ≤ w.2 then min (nowM + delta) w.2
  else if s.endM < s.startM ∧ now.tod < s.startM then now.day * 1440 + s.startM
  else (now.day + 1) * 1440 + s.startM

/-- `_update_next_check` for a daily schedule: only `next_check`
changes. -/
def _update_next_check_daily (s : DailySched) (now : DateTime) (delta : Int) :
    DailySched :=
  { s with next_check := some (nextCheckDaily s now delta) }

/-- `_check_daily_schedule`: one evaluation of a daily schedule.  The
returned `Bool` records whether `_perform_check` spawned a worker. -/
def _check_daily_schedule (s : DailySched) (now : DateTime) (delta : Int) :
    DailySched × Bool :=
  let w := dailyWindow s.startM s.endM now
  let nowM := now.toMin
  if w.1 ≤ nowM ∧ nowM ≤ w.2 then
    if s.status = SchedStatus.download_started then (s, false)
    else
      let wasPending := s.status = SchedStatus.pending
      let s1 := { s with status := SchedStatus.active }
      if wasPending ∨ due s1.next_check nowM then
        (_update_next_check_daily s1 now delta, true)
      else (s1, false)
  else if nowM < w.1 then
    let s1 := { s with status := SchedStatus.pending }
    if s1.next_check ≠ some w.1 then (_update_next_check_daily s1 now delta, false)
    else (s1, false)
  else
    if s.status = SchedStatus.download_started then
      (_update_next_check_daily
        { s with status := SchedStatus.pending, last_check := none } now delta, false)
    else (s, false)

/-! ### Block counting (stated from the spec, for comparison with the
parser) -/

/-- A line that opens an `#EXT-X-STREAM-INF:` block. -/
def isStreamInfLine (line : List Char) : Bool :=
  "#EXT-X-STREAM-INF:".data.isPrefixOf (stripWs line)

/-- The number of `#EXT-X-STREAM-INF:` blocks in a manifest. -/
def countStreamInfBlocks (content : String) : Nat :=
  ((splitOnChar '\n' content.data).filter isStreamInfLine).length

/-- The number of `#EXT-X-STREAM-INF:` blocks whose following line exists,
is non-empty after stripping and does not start with `#` — the blocks that
contribute a variant. -/
def countUsableBlocks : List (List Char) → Nat
  | [] => 0
  | line :: rest =>
    (if "#EXT-X-STREAM-INF:".data.isPrefixOf (stripWs line) then
      match rest.head? with
      | none => 0
      | some nxt =>
        if stripWs nxt ≠ [] ∧ ¬ (['#'].isPrefixOf (stripWs nxt)) then 1 else 0
     else 0) + countUsableBlocks rest

/-! ### Helper lemmas: the head of a stable sort bounds the candidates -/

theorem sorted_filter_head_max {α : Type} {r : α → α → Prop} {p : α → Bool}
    (hrefl : ∀ a, r a a) :
    ∀ {l : List α}, l.Sorted r → ∀ {x : α}, (l.filter p).head? = some x →
      x ∈ l ∧ p x = true ∧ ∀ y ∈ l, p y = true → r x y := by
  intro l
  induction l with
  | nil => intro _ x hx; simp at hx
  | cons a t ih =>
    intro hl x hx
    rw [List.sorted_cons] at hl
    by_cases hpa : p a = true
    · rw [List.filter_cons, if_pos hpa] at hx
      simp only [List.head?] at hx
      cases hx
      refine ⟨List.mem_cons_self _ _, hpa, ?_⟩
      intro y hy _
      rcases List.mem_cons.mp hy with rfl | hyt
      · exact hrefl _
      · exact hl.1 y hyt
    · rw [List.filter_cons, if_neg hpa] at hx
      obtain ⟨hxt, hpx, hall⟩ := ih hl.2 hx
      refine ⟨List.mem_cons_of_mem _ hxt, hpx, ?_⟩
      intro y hy hpy
      rcases List.mem_cons.mp hy with rfl | hyt
      · exact absurd hpy hpa
      · exact hall y hyt hpy

theorem insertionSort_filter_head_spec {α : Type} (r : α → α → Prop)
    [DecidableRel r] [IsTotal α r] [IsTrans α r] (hrefl : ∀ a, r a a)
    (p : α → Bool) (l : List α) {x : α}
    (hx : ((List.insertionSort r l).filter p).head? = some x) :
    x ∈ l ∧ p x = true ∧ ∀ y ∈ l, p y = true → r x y := by
  obtain ⟨hm, hp, hall⟩ := sorted_filter_head_max hrefl (List.sorted_insertionSort r l) hx
  exact ⟨(List.mem_insertionSort r).1 hm, hp,
    fun y hy hpy => hall y ((List.mem_insertionSort r).2 hy) hpy⟩

theorem insertionSort_head_spec {α : Type} (r : α → α → Prop)
    [DecidableRel r] [IsTotal α r] [IsTrans α r] (hrefl : ∀ a, r a a)
    (l : List α) {x : α}
    (hx : (List.insertionSort r l).head? = some x) :
    x ∈ l ∧ ∀ y ∈ l, r x y := by
  have hx2 : ((List.insertionSort r l).filter (fun _ => true)).head? = some x := by
    simpa using hx
  obtain ⟨hm, _, hall⟩ := insertionSort_filter_head_spec r hrefl _ l hx2
  exact ⟨hm, fun y hy => hall y hy rfl⟩

/-- A non-empty filtered sort has a head. -/
theorem filter_head_exists {α : Type} (p : α → Bool) {l : List α} {v : α}
    (hv : v ∈ l) (hp : p v = true) : ∃ x, (l.filter p).head? = some x := by
  cases hfl : (l.filter p).head? with
  | some x => exact ⟨x, rfl⟩
  | none =>
    rw [List.head?_eq_none_iff] at hfl
    have : v ∈ l.filter p := List.mem_filter.mpr ⟨hv, hp⟩
    rw [hfl] at this
    cases this

/-! ### Implementation equations for the matcher cascade -/

theorem pyInt_source : pyInt "source".data = none := by decide

theorem match_stream_source (resolution framerate : String) (rs : List Variant)
    (hne : rs.isEmpty = false)
    (hsrc : (pyLower resolution.data).filter (· ≠ 'p') = "source".data) :
    _match_stream resolution framerate rs = (List.insertionSort qualityGe rs).head? := by
  simp at hsrc
  simp [_match_stream, hne, hsrc]

theorem match_stream_stage1 (resolution framerate : String) (rs : List Variant)
    (targetHeight fps : Int) {x : Variant}
    (hne : rs.isEmpty = false)
    (hres : pyInt ((pyLower resolution.data).filter (· ≠ 'p')) = some targetHeight)
    (hfps : targetFpsOf framerate = some fps)
    (hx : ((List.insertionSort qualityGe rs).filter (exactMatchB targetHeight fps)).head? =
      some x) :
    _match_stream resolution framerate rs = some x := by
  have hnsrc : (pyLower resolution.data).filter (· ≠ 'p') ≠ "source".data := by
    intro h
    rw [h, pyInt_source] at hres
    cases hres
  simp at hnsrc hres hx
  simp [_match_stream, hne, hnsrc, hres, hfps, hx]

theorem match_stream_stage2 (resolution framerate : String) (rs : List Variant)
    (targetHeight : Int) {x : Variant}
    (hne : rs.isEmpty = false)
    (hres : pyInt ((pyLower resolution.data).filter (· ≠ 'p')) = some targetHeight)
    (hperf : ∀ fps, targetFpsOf framerate = some fps →
      (List.insertionSort qualityGe rs).filter (exactMatchB targetHeight fps) = [])
    (hx : (List.insertionSort frGe
        ((List.insertionSort qualityGe rs).filter (heightMatchB targetHeight))).head? =
      some x) :
    _match_stream resolution framerate rs = some x := by
  have hnsrc : (pyLower resolution.data).filter (· ≠ 'p') ≠ "source".data := by
    intro h
    rw [h, pyInt_source] at hres
    cases hres
  simp at hnsrc hres hx
  cases hfps : targetFpsOf framerate with
  | none => simp [_match_stream, hne, hnsrc, hres, hfps, hx]
  | some fps =>
    have hp := hperf fps hfps
    simp at hp
    have hfind : List.find? (exactMatchB targetHeight fps)
        (List.insertionSort qualityGe rs) = none := by
      rw [List.find?_eq_none]
      intro a ha
      simp [hp a ((List.mem_insertionSort qualityGe).1 ha)]
    simp [_match_stream, hne, hnsrc, hres, hfps, hfind, hx]

/-! ### The parser produces one variant per usable block -/

theorem parseBlocks_length : ∀ {ls : List (List Char)} {vs : List Variant},
    parseBlocks ls = some vs → vs.length = countUsableBlocks ls := by
  intro ls
  induction ls with
  | nil =>
    intro vs h
    simp only [parseBlocks, Option.some.injEq] at h
    simp [← h, countUsableBlocks]
  | cons line rest ih =>
    intro vs h
    simp only [parseBlocks] at h
    simp only [countUsableBlocks, isStreamInfLine]
    split at h
    next h1 =>
      rw [if_pos h1]
      split at h
      next _ =>
        simpa using ih h
      next nxt _ =>
        split at h
        next h2 =>
          rw [if_pos h2]
          split at h
          next _ => exact absurd h (by simp)
          next v hmk =>
            obtain ⟨ws, hws, hvs⟩ := Option.map_eq_some'.mp h
            subst hvs
            rw [List.length_cons, ih hws]
            omega
        next h2 =>
          rw [if_neg h2]
          simpa using ih h
    next h1 =>
      rw [if_neg h1]
      simpa using ih h

/-! ### Example variants used in concrete instantiations -/

def exv1080p60 : Variant :=
  ⟨"http://ex/1080p60", 8000000, "1920x1080", "60", "", "1080p60"⟩

def exv1085p60 : Variant :=
  ⟨"http://ex/hi", 2000000, "1928x1085", "60", "", "hi"⟩

def exv1440p30 : Variant :=
  ⟨"http://ex/1440p30", 9000000, "2560x1440", "30", "", "1440p30"⟩

def exv1080p30 : Variant :=
  ⟨"http://ex/1080p30", 5000000, "1920x1080", "30", "", "1080p30"⟩

def exv720p60 : Variant :=
  ⟨"http://ex/720p60", 4000000, "1280x720", "60", "", "720p60"⟩

/-! ### Claim C7 -/

/-- C7: on a non-empty variant list, a `"source"` height preference makes
`_match_stream` return a variant of the list whose
`(get_resolution_height, get_framerate)` key — explicit attributes first,
then digits in the name, then bandwidth — is lexicographically greatest
among all variants of the list. -/
theorem C7_source_returns_max_quality (framerate : String) (rs : List Variant)
    (hne : rs ≠ []) :
    ∃ v, _match_stream "source" framerate rs = some v ∧ v ∈ rs ∧
      ∀ w ∈ rs, lexLeInt (streamKey w) (streamKey v) := by
  have hne2 : rs.isEmpty = false := by
    cases rs with
    | nil => exact absurd rfl hne
    | cons a t => rfl
  have hsrc : (pyLower "source".data).filter (· ≠ 'p') = "source".data := by decide
  have heq := match_stream_source "source" framerate rs hne2 hsrc
  obtain ⟨x, hx⟩ : ∃ x, (List.insertionSort qualityGe rs).head? = some x := by
    cases hs : List.insertionSort qualityGe rs with
    | nil =>
      exfalso
      apply hne
      apply List.length_eq_zero.mp
      rw [← List.length_insertionSort qualityGe rs, hs]
      rfl
    | cons a t => exact ⟨a, rfl⟩
  obtain ⟨hmem, hall⟩ :=
    insertionSort_head_spec qualityGe (fun a => lexLeInt_refl (streamKey a)) rs hx
  exact ⟨x, by rw [heq, hx], hmem, fun w hw => hall w hw⟩

/-- C7 witness: a concrete instantiation. -/
theorem C7_witness :
    ∃ v, _match_stream "source" "any" [exv720p60, exv1440p30] = some v ∧
      v ∈ [exv720p60, exv1440p30] ∧
      ∀ w ∈ [exv720p60, exv1440p30], lexLeInt (streamKey w) (streamKey v) :=
  C7_source_returns_max_quality "any" [exv720p60, exv1440p30] (by decide)

/-! ### Claim C1 -/

/-- C1 counterexample: both variants are exact matches for (1080, 60); the
input list is bandwidth-descending and `exv1080p60` is its first exact
match (and the highest-bandwidth one), yet `_match_stream` returns the
other variant, whose parsed height 1085 sorts above 1080 in the quality
order. -/
theorem C1_counterexample :
    _match_stream "1080" "60" [exv1080p60, exv1085p60] = some exv1085p60 ∧
    exv1085p60 ≠ exv1080p60 ∧
    exv1085p60.bandwidth < exv1080p60.bandwidth ∧
    exactMatchB 1080 60 exv1080p60 = true ∧
    exactMatchB 1080 60 exv1085p60 = true := by
  decide

/-- C1 (amended): with an explicit numeric preference, when some variant
is within both tolerances `_match_stream` returns an exact match that is
greatest in the `(height, frameRate)` lexicographic order among all exact
matches of the list (ties keep the earlier, higher-bandwidth entry) — not
necessarily the first exact match in bandwidth order. -/
theorem C1_amended_exact_match (resolution framerate : String) (rs : List Variant)
    (targetHeight fps : Int)
    (hres : pyInt ((pyLower resolution.data).filter (· ≠ 'p')) = some targetHeight)
    (hfps : targetFpsOf framerate = some fps)
    (hex : ∃ v ∈ rs, exactMatchB targetHeight fps v = true) :
    ∃ x, _match_stream resolution framerate rs = some x ∧ x ∈ rs ∧
      exactMatchB targetHeight fps x = true ∧
      ∀ w ∈ rs, exactMatchB targetHeight fps w = true →
        lexLeInt (streamKey w) (streamKey x) := by
  obtain ⟨v, hv, hpv⟩ := hex
  have hne2 : rs.isEmpty = false := by
    cases rs with
    | nil => cases hv
    | cons a t => rfl
  have hv2 : v ∈ List.insertionSort qualityGe rs := (List.mem_insertionSort qualityGe).2 hv
  obtain ⟨x, hx⟩ := filter_head_exists (exactMatchB targetHeight fps) hv2 hpv
  have heq := match_stream_stage1 resolution framerate rs targetHeight fps hne2 hres hfps hx
  obtain ⟨hmem, hpx, hall⟩ :=
    insertionSort_filter_head_spec qualityGe (fun a => lexLeInt_refl (streamKey a)) _ rs hx
  exact ⟨x, heq, hmem, hpx, fun w hw hpw => hall w hw hpw⟩

/-- C1 witness: `match(variants, 1080, 60)` on a bandwidth-descending list
whose top entry is a higher-bandwidth 1440p30 still picks the exact
1080p60 entry. -/
theorem C1_witness :
    (∃ x, _match_stream "1080" "60" [exv1440p30, exv1080p60] = some x ∧
      x ∈ [exv1440p30, exv1080p60] ∧
      exactMatchB 1080 60 x = true ∧
      ∀ w ∈ [exv1440p30, exv1080p60], exactMatchB 1080 60 w = true →
        lexLeInt (streamKey w) (streamKey x)) ∧
    _match_stream "1080" "60" [exv1440p30, exv1080p60] = some exv1080p60 := by
  constructor
  · exact C1_amended_exact_match "1080" "60" [exv1440p30, exv1080p60] 1080 60
      (by decide) (by decide) ⟨exv1080p60, by decide, by decide⟩
  · decide

/-! ### Claim C8 -/

/-- C8: with a numeric height target, when no variant is within both
tolerances but some variant is within the height tolerance,
`_match_stream` returns a height-matching variant whose frame rate is
greatest among the height-matching variants — the frame-rate preference is
ignored at this stage. -/
theorem C8_resolution_beats_framerate (resolution framerate : String)
    (rs : List Variant) (targetHeight : Int)
    (hres : pyInt ((pyLower resolution.data).filter (· ≠ 'p')) = some targetHeight)
    (hnoperf : ∀ fps v, targetFpsOf framerate = some fps → v ∈ rs →
      exactMatchB targetHeight fps v = false)
    (hex : ∃ v ∈ rs, heightMatchB targetHeight v = true) :
    ∃ x, _match_stream resolution framerate rs = some x ∧ x ∈ rs ∧
      heightMatchB targetHeight x = true ∧
      ∀ w ∈ rs, heightMatchB targetHeight w = true →
        get_framerate w ≤ get_framerate x := by
  obtain ⟨v, hv, hpv⟩ := hex
  have hne2 : rs.isEmpty = false := by
    cases rs with
    | nil => cases hv
    | cons a t => rfl
  have hperf : ∀ fps, targetFpsOf framerate = some fps →
      (List.insertionSort qualityGe rs).filter (exactMatchB targetHeight fps) = [] := by
    intro fps hf
    apply List.filter_eq_nil_iff.mpr
    intro a ha
    simp [hnoperf fps a hf ((List.mem_insertionSort qualityGe).1 ha)]
  have hvc : v ∈ (List.insertionSort qualityGe rs).filter (heightMatchB targetHeight) :=
    List.mem_filter.mpr ⟨(List.mem_insertionSort qualityGe).2 hv, hpv⟩
  obtain ⟨x, hx⟩ : ∃ x,
      (List.insertionSort frGe
        ((List.insertionSort qualityGe rs).filter (heightMatchB targetHeight))).head? =
        some x := by
    cases hs : List.insertionSort frGe
        ((List.insertionSort qualityGe rs).filter (heightMatchB targetHeight)) with
    | nil =>
      exfalso
      have hnil : (List.insertionSort qualityGe rs).filter (heightMatchB targetHeight) = [] := by
        apply List.length_eq_zero.mp
        rw [← List.length_insertionSort frGe, hs]
        rfl
      rw [hnil] at hvc
      cases hvc
    | cons a t => exact ⟨a, rfl⟩
  have heq := match_stream_stage2 resolution framerate rs targetHeight hne2 hres hperf hx
  obtain ⟨hmemc, hall⟩ := insertionSort_head_spec frGe (fun a => le_refl (get_framerate a)) _ hx
  have hxf := List.mem_filter.mp hmemc
  refine ⟨x, heq, (List.mem_insertionSort qualityGe).1 hxf.1, hxf.2, ?_⟩
  intro w hw hpw
  exact hall w (List.mem_filter.mpr ⟨(List.mem_insertionSort qualityGe).2 hw, hpw⟩)

/-- C8 witness: `match(variants, 1080, 60)` on {1080p30, 720p60} picks
1080p30 — resolution beats frame rate. -/
theorem C8_witness :
    (∃ x, _match_stream "1080" "60" [exv1080p30, exv720p60] = some x ∧
      x ∈ [exv1080p30, exv720p60] ∧
      heightMatchB 1080 x = true ∧
      ∀ w ∈ [exv1080p30, exv720p60], heightMatchB 1080 w = true →
        get_framerate w ≤ get_framerate x) ∧
    _match_stream "1080" "60" [exv1080p30, exv720p60] = some exv1080p30 := by
  constructor
  · apply C8_resolution_beats_framerate "1080" "60" [exv1080p30, exv720p60] 1080
      (by decide)
    · intro fps v hf hv
      have h60 : (some 60 : Option Int) = some fps := by
        rw [← hf]; decide
      cases h60
      fin_cases hv <;> decide
    · exact ⟨exv1080p30, by decide, by decide⟩
  · decide

/-! ### Claims C2 and C10 -/

theorem countUsableBlocks_le : ∀ ls : List (List Char),
    countUsableBlocks ls ≤ (ls.filter isStreamInfLine).length := by
  intro ls
  induction ls with
  | nil => simp [countUsableBlocks]
  | cons line rest ih =>
    simp only [countUsableBlocks, List.filter_cons]
    by_cases h1 : "#EXT-X-STREAM-INF:".data.isPrefixOf (stripWs line) = true
    · have h2 : isStreamInfLine line = true := h1
      rw [if_pos h1, if_pos h2]
      have hb : (match rest.head? with
          | none => 0
          | some nxt =>
            if stripWs nxt ≠ [] ∧ ¬ (['#'].isPrefixOf (stripWs nxt)) then 1 else 0) ≤ 1 := by
        cases rest.head? with
        | none => simp
        | some nxt =>
          show (if stripWs nxt ≠ [] ∧ ¬ (['#'].isPrefixOf (stripWs nxt)) then 1 else 0) ≤ 1
          split <;> simp
      rw [List.length_cons]
      omega
    · have h2 : isStreamInfLine line = false := by
        rw [isStreamInfLine]
        exact Bool.not_eq_true _ ▸ (by simpa using h1)
      rw [if_neg h1, h2]
      simpa using ih

/-- C2 counterexample: a manifest with one `#EXT-X-STREAM-INF:` block whose
URL line is missing parses to zero variants, and two blocks with equal
bandwidth parse to a list that is not strictly descending. -/
theorem C2_counterexample :
    parse_master_playlist "#EXT-X-STREAM-INF:X=1,BANDWIDTH=100" = some [] ∧
    countStreamInfBlocks "#EXT-X-STREAM-INF:X=1,BANDWIDTH=100" = 1 ∧
    (parse_master_playlist
        "#EXT-X-STREAM-INF:X=1,BANDWIDTH=5\nu1\n#EXT-X-STREAM-INF:X=1,BANDWIDTH=5\nu2").map
      (fun l => l.map (·.bandwidth)) = some [5, 5] ∧
    countStreamInfBlocks
      "#EXT-X-STREAM-INF:X=1,BANDWIDTH=5\nu1\n#EXT-X-STREAM-INF:X=1,BANDWIDTH=5\nu2" = 2 := by
  decide

/-- C2 (amended): a manifest with N `#EXT-X-STREAM-INF:` blocks parses to
at most N variants (blocks without a usable URL line are skipped), ordered
descending — not necessarily strictly — by bandwidth. -/
theorem C2_amended_at_most_N_sorted (content : String) (rs : List Variant)
    (h : parse_master_playlist content = some rs) :
    rs.length ≤ countStreamInfBlocks content ∧ List.Sorted bwGe rs := by
  obtain ⟨vs, hvs, hsort⟩ := Option.map_eq_some'.mp h
  subst hsort
  constructor
  · rw [List.length_insertionSort, parseBlocks_length hvs]
    exact countUsableBlocks_le _
  · exact List.sorted_insertionSort bwGe vs

/-- C2 witness: a concrete two-block manifest. -/
theorem C2_witness :
    ([⟨"u1", 5, "", "", "", ""⟩, ⟨"u2", 5, "", "", "", ""⟩] : List Variant).length ≤
      countStreamInfBlocks
        "#EXT-X-STREAM-INF:X=1,BANDWIDTH=5\nu1\n#EXT-X-STREAM-INF:X=1,BANDWIDTH=5\nu2" ∧
    List.Sorted bwGe [⟨"u1", 5, "", "", "", ""⟩, ⟨"u2", 5, "", "", "", ""⟩] :=
  C2_amended_at_most_N_sorted
    "#EXT-X-STREAM-INF:X=1,BANDWIDTH=5\nu1\n#EXT-X-STREAM-INF:X=1,BANDWIDTH=5\nu2"
    [⟨"u1", 5, "", "", "", ""⟩, ⟨"u2", 5, "", "", "", ""⟩] (by decide)

/-- C10: the parser returns exactly one variant per usable block — a block
whose following line is absent, empty after stripping, or starts with `#`
contributes nothing and raises nothing — so the variant count is the
usable-block count, which is at most the block count. -/
theorem C10_unusable_blocks_skipped (content : String) (rs : List Variant)
    (h : parse_master_playlist content = some rs) :
    rs.length = countUsableBlocks (splitOnChar '\n' content.data) ∧
    countUsableBlocks (splitOnChar '\n' content.data) ≤ countStreamInfBlocks content := by
  obtain ⟨vs, hvs, hsort⟩ := Option.map_eq_some'.mp h
  subst hsort
  exact ⟨by rw [List.length_insertionSort, parseBlocks_length hvs],
    countUsableBlocks_le _⟩

/-- C10 witness: a block with no URL line parses (without raising) to an
empty list, strictly fewer variants than blocks. -/
theorem C10_witness :
    ([] : List Variant).length =
      countUsableBlocks (splitOnChar '\n' "#EXT-X-STREAM-INF:X=1,BANDWIDTH=100".data) ∧
    countUsableBlocks (splitOnChar '\n' "#EXT-X-STREAM-INF:X=1,BANDWIDTH=100".data) <
      countStreamInfBlocks "#EXT-X-STREAM-INF:X=1,BANDWIDTH=100" :=
  ⟨(C10_unusable_blocks_skipped "#EXT-X-STREAM-INF:X=1,BANDWIDTH=100" [] (by decide)).1,
   by decide⟩

/-! ### Claim C6 -/

/-- C6 counterexample: a URL containing `doubleclick` that matches no
playlist extension, no provider API pattern and no playlist-in-path
pattern is still accepted when the MIME type is a known playlist MIME —
the ad/tracking exclusion does not guard the MIME branch. -/
theorem C6_counterexample :
    _is_video_stream "http://x.com/doubleclick/a" "application/x-mpegurl" = true ∧
    hasSub "doubleclick".data (pyLower "http://x.com/doubleclick/a".data) = true ∧
    (hasSub "usher.ttvnw.net".data (pyLower "http://x.com/doubleclick/a".data) &&
      hasSub ".m3u8".data (pyLower "http://x.com/doubleclick/a".data)) = false ∧
    (hasSub "playlist".data (pyLower "http://x.com/doubleclick/a".data) &&
      hasSub ".m3u8".data (pyLower "http://x.com/doubleclick/a".data)) = false := by
  decide

/-- C6 (amended): the ad/tracking exclusion applies exactly on the
playlist-extension path: a URL with a playlist extension (or `.ext?` in
it) that contains an ad/tracking keyword is rejected for every MIME type
— the extension branch returns before the MIME branch is reached —
provided it carries no segment marker and does not match the provider API
pattern. -/
theorem C6_amended_extension_path_excluded (url mimeType : String)
    (had : (hasSub "doubleclick".data (pyLower url.data) ||
            hasSub "analytics".data (pyLower url.data) ||
            hasSub "tracking".data (pyLower url.data)) = true)
    (hext : ((".m3u8".data.isSuffixOf (pyLower url.data) ||
              hasSub ".m3u8?".data (pyLower url.data)) ||
             (".mpd".data.isSuffixOf (pyLower url.data) ||
              hasSub ".mpd?".data (pyLower url.data))) = true)
    (hseg : (".ts".data.isSuffixOf (pyLower url.data) ||
             ".m4s".data.isSuffixOf (pyLower url.data) ||
             hasSub "/segment/".data (pyLower url.data)) = false)
    (hapi : (hasSub "usher.ttvnw.net".data (pyLower url.data) &&
             hasSub ".m3u8".data (pyLower url.data)) = false) :
    _is_video_stream url mimeType = false := by
  simp only [_is_video_stream]
  rw [hseg, hapi, hext, had]
  simp

/-- C6 witness: an ad URL with a playlist extension is rejected even with
a playlist MIME type. -/
theorem C6_witness :
    _is_video_stream "http://ads.doubleclick.net/v.m3u8" "application/x-mpegurl" = false :=
  C6_amended_extension_path_excluded "http://ads.doubleclick.net/v.m3u8"
    "application/x-mpegurl" (by decide) (by decide) (by decide) (by decide)

/-! ### Claim C9 -/

/-- C9: for a detected `.m3u8` URL, when the manifest fetch fails
(`fetch_master_playlist` returned `None`) or the fetched body contains no
`#EXT-X-STREAM-INF:` tag, the handler degrades to the single-stream path
with the unparsed entry (bandwidth 0, empty resolution/framerate/codecs,
name = detected stream type); being a total function, the dispatch raises
nothing. -/
theorem C9_degrade_to_single_stream (si : StreamInfo) (fetched : Option String)
    (hm : hasSub ".m3u8".data (pyLower si.url.data) = true)
    (hfail : fetched = none ∨
      ∃ c, fetched = some c ∧ hasSub "#EXT-X-STREAM-INF:".data c.data = false) :
    _handle_stream_detection si fetched =
      DetectAction.single
        { url := si.url, bandwidth := 0, resolution := "", framerate := "",
          codecs := "", name := si.type } := by
  rcases hfail with rfl | ⟨c, rfl, hc⟩
  · simp [_handle_stream_detection, _process_single_stream, hm]
  · simp [_handle_stream_detection, _process_single_stream, hm, hc]

/-- C9 witness: a media (non-master) manifest body degrades to the
single-stream entry. -/
theorem C9_witness :
    _handle_stream_detection ⟨"http://e/playlist.m3u8", "HLS", ""⟩
        (some "#EXTM3U\n#EXT-X-TARGETDURATION:6") =
      DetectAction.single
        { url := "http://e/playlist.m3u8", bandwidth := 0, resolution := "",
          framerate := "", codecs := "", name := "HLS" } :=
  C9_degrade_to_single_stream ⟨"http://e/playlist.m3u8", "HLS", ""⟩
    (some "#EXTM3U\n#EXT-X-TARGETDURATION:6") (by decide)
    (Or.inr ⟨"#EXTM3U\n#EXT-X-TARGETDURATION:6", rfl, by decide⟩)

/-! ### Claim C4 -/

/-- C4: for a midnight-spanning daily schedule, an evaluation whose time
of day is before the start time anchors the window to yesterday's start
through today's end; in particular a `{start 23:00, end 01:00}` schedule
evaluated at 00:30 (with no download already started) reports status
`active` with window yesterday 23:00 → today 01:00. -/
theorem C4_midnight_window_anchor (startM endM : Int) (now : DateTime)
    (s : DailySched) (delta : Int) :
    (endM < startM → now.tod < startM →
      dailyWindow startM endM now =
        ((now.day - 1) * 1440 + startM, now.day * 1440 + endM)) ∧
    (s.startM = 1380 → s.endM = 60 → now.tod = 30 →
      s.status ≠ SchedStatus.download_started →
      (_check_daily_schedule s now delta).1.status = SchedStatus.active ∧
      dailyWindow s.startM s.endM now =
        ((now.day - 1) * 1440 + 1380, now.day * 1440 + 60)) := by
  constructor
  · intro h1 h2
    simp [dailyWindow, h1, h2]
  · intro e1 e2 e3 hds
    have hw : dailyWindow s.startM s.endM now =
        ((now.day - 1) * 1440 + 1380, now.day * 1440 + 60) := by
      rw [e1, e2]
      simp [dailyWindow, e3]
    refine ⟨?_, hw⟩
    have hcond : (dailyWindow s.startM s.endM now).1 ≤ now.toMin ∧
        now.toMin ≤ (dailyWindow s.startM s.endM now).2 := by
      rw [hw, DateTime.toMin, e3]
      constructor <;> dsimp only <;> omega
    simp only [_check_daily_schedule]
    rw [if_pos hcond, if_neg hds]
    split <;> simp [_update_next_check_daily]

/-- C4 witness: `{start 23:00, end 01:00}` evaluated at day 1, 00:30. -/
theorem C4_witness :
    dailyWindow 1380 60 ⟨1, 30⟩ = (1380, 1500) ∧
    (_check_daily_schedule ⟨SchedStatus.pending, none, none, 1380, 60⟩ ⟨1, 30⟩ 5).1.status =
      SchedStatus.active := by
  obtain ⟨h1, h2⟩ :=
    C4_midnight_window_anchor 1380 60 ⟨1, 30⟩ ⟨SchedStatus.pending, none, none, 1380, 60⟩ 5
  have h1c := h1 (by decide) (by decide)
  norm_num at h1c
  exact ⟨h1c, (h2 rfl rfl rfl (by decide)).1⟩

/-! ### Claim C5 -/

/-- C5 counterexample: a daily schedule whose window (10:00–11:00) has
passed but whose status is `active` (not `download_started`) is left
completely unchanged by the post-window evaluation at 11:30 — the status
is not reset to `pending` and `next_check` is not re-armed. -/
theorem C5_counterexample :
    _check_daily_schedule ⟨SchedStatus.active, some 660, none, 600, 660⟩ ⟨0, 690⟩ 5 =
      (⟨SchedStatus.active, some 660, none, 600, 660⟩, false) ∧
    (dailyWindow 600 660 ⟨0, 690⟩).2 < (DateTime.toMin ⟨0, 690⟩) := by
  decide

/-- C5 (amended): only when the status is `download_started` does the
first evaluation after the window end reset the schedule: status becomes
`pending`, `last_check` clears, and `next_check` re-arms at the next
occurrence's start (today's start for a midnight-spanning window evaluated
before the start time, else tomorrow's start).  A window that ends with
status `active` is left unchanged (see the counterexample). -/
theorem C5_amended_reset_on_download_started (s : DailySched) (now : DateTime)
    (delta : Int)
    (hsm0 : 0 ≤ s.startM) (hsm1 : s.startM < 1440)
    (hem0 : 0 ≤ s.endM) (hem1 : s.endM < 1440)
    (_htod0 : 0 ≤ now.tod) (_htod1 : now.tod < 1440)
    (hst : s.status = SchedStatus.download_started)
    (hpassed : (dailyWindow s.startM s.endM now).2 < now.toMin) :
    (_check_daily_schedule s now delta).1.status = SchedStatus.pending ∧
    (_check_daily_schedule s now delta).1.last_check = none ∧
    (_check_daily_schedule s now delta).1.next_check =
      some (if s.endM < s.startM ∧ now.tod < s.startM
            then now.day * 1440 + s.startM
            else (now.day + 1) * 1440 + s.startM) ∧
    (_check_daily_schedule s now delta).2 = false := by
  have hnw : ¬ ((dailyWindow s.startM s.endM now).1 ≤ now.toMin ∧
      now.toMin ≤ (dailyWindow s.startM s.endM now).2) := by
    rintro ⟨-, h2⟩
    exact absurd hpassed (not_lt.mpr h2)
  have hnb : ¬ (now.toMin < (dailyWindow s.startM s.endM now).1) := by
    by_cases hspan : s.endM < s.startM
    · by_cases htod : now.tod < s.startM
      · simp only [dailyWindow, if_pos hspan, if_pos htod, DateTime.toMin] at hpassed ⊢
        omega
      · simp only [dailyWindow, if_pos hspan, if_neg htod, DateTime.toMin] at hpassed ⊢
        omega
    · simp only [dailyWindow, if_neg hspan, DateTime.toMin] at hpassed ⊢
      omega
  simp only [_check_daily_schedule]
  rw [if_neg hnw, if_neg hnb, if_pos hst]
  refine ⟨rfl, rfl, ?_, rfl⟩
  show some (nextCheckDaily
      { s with status := SchedStatus.pending, last_check := none } now delta) = _
  simp only [nextCheckDaily]
  rw [if_neg hnb, if_neg hnw]

/-- C5 witness: `{start 23:00, end 01:00}` with a started download,
evaluated at day 1, 01:30 — the window (yesterday 23:00 → today 01:00)
has passed; the schedule resets and re-arms at today 23:00. -/
theorem C5_witness :
    (_check_daily_schedule ⟨SchedStatus.download_started, some 90, none, 1380, 60⟩
        ⟨1, 90⟩ 5).1.status = SchedStatus.pending ∧
    (_check_daily_schedule ⟨SchedStatus.download_started, some 90, none, 1380, 60⟩
        ⟨1, 90⟩ 5).1.last_check = none ∧
    (_check_daily_schedule ⟨SchedStatus.download_started, some 90, none, 1380, 60⟩
        ⟨1, 90⟩ 5).1.next_check =
      some (if (60 : Int) < 1380 ∧ (90 : Int) < 1380 then 1 * 1440 + 1380
            else (1 + 1) * 1440 + 1380) ∧
    (_check_daily_schedule ⟨SchedStatus.download_started, some 90, none, 1380, 60⟩
        ⟨1, 90⟩ 5).2 = false :=
  C5_amended_reset_on_download_started
    ⟨SchedStatus.download_started, some 90, none, 1380, 60⟩ ⟨1, 90⟩ 5
    (by decide) (by decide) (by decide) (by decide) (by decide) (by decide)
    rfl (by decide)

/-! ### Claim C3 -/

/-- A tick that spawns does so inside the window, and leaves the schedule
`active` with `next_check` re-armed at `min (now + delta) end`. -/
theorem check_regular_spawn_inv (s : Sched) (now delta : Int)
    (hsp : (_check_schedule_regular s now delta).2 = true) :
    s.start_time ≤ now ∧ now ≤ s.end_time ∧
    (_check_schedule_regular s now delta).1 =
      { s with status := SchedStatus.active,
               next_check := some (min (now + delta) s.end_time) } := by
  by_cases hc : s.status = SchedStatus.completed
  · simp [_check_schedule_regular, hc] at hsp
  by_cases he : s.end_time < now
  · by_cases hr : s.repeatWeekly = true
    · simp [_check_schedule_regular, hc, he, hr] at hsp
    · by_cases hd : s.status = SchedStatus.download_started
      · simp [_check_schedule_regular, hc, he, hr, hd] at hsp
      · simp [_check_schedule_regular, hc, he, hr, hd] at hsp
  by_cases hw : s.start_time ≤ now ∧ now ≤ s.end_time
  · by_cases hd : s.status = SchedStatus.download_started
    · simp [_check_schedule_regular, hc, he, hw, hd] at hsp
    · by_cases hdue : s.status = SchedStatus.pending ∨ due s.next_check now
      · refine ⟨hw.1, hw.2, ?_⟩
        simp [_check_schedule_regular, hc, he, hw.1, hw.2, hd, hdue,
          _update_next_check_regular, nextCheckRegular, not_lt.mpr hw.1]
      · simp [_check_schedule_regular, hc, he, hw.1, hw.2, hd, hdue] at hsp
  · by_cases hnc : s.next_check = some s.start_time
    · simp [_check_schedule_regular, hc, he, hw, hnc] at hsp
    · simp [_check_schedule_regular, hc, he, hw, hnc] at hsp

/-- Every minute inside the window that `dailyWindow` anchors at `now` is
anchored to the same window: the occurrence does not drift between ticks
of one occurrence, midnight-spanning or not. -/
theorem dailyWindow_stable (sM eM : Int) (now now2 : DateTime)
    (hsm0 : 0 ≤ sM) (hsm1 : sM < 1440) (hem0 : 0 ≤ eM) (hem1 : eM < 1440)
    (htod0 : 0 ≤ now.tod) (htod1 : now.tod < 1440)
    (h2tod0 : 0 ≤ now2.tod) (h2tod1 : now2.tod < 1440)
    (hin1 : (dailyWindow sM eM now).1 ≤ now2.toMin)
    (hin2 : now2.toMin ≤ (dailyWindow sM eM now).2) :
    dailyWindow sM eM now2 = dailyWindow sM eM now := by
  by_cases hspan : eM < sM
  · by_cases ht1 : now.tod < sM
    · by_cases ht2 : now2.tod < sM
      · simp [dailyWindow, DateTime.toMin, hspan, ht1, ht2] at hin1 hin2 ⊢
        omega
      · simp [dailyWindow, DateTime.toMin, hspan, ht1, ht2] at hin1 hin2 ⊢
        omega
    · by_cases ht2 : now2.tod < sM
      · simp [dailyWindow, DateTime.toMin, hspan, ht1, ht2] at hin1 hin2 ⊢
        omega
      · simp [dailyWindow, DateTime.toMin, hspan, ht1, ht2] at hin1 hin2 ⊢
        omega
  · simp [dailyWindow, DateTime.toMin, hspan] at hin1 hin2 ⊢
    omega

/-- A daily tick that spawns does so inside the anchored window, and
leaves the schedule `active` with `next_check` re-armed at
`min (now + delta) windowEnd`. -/
theorem check_daily_spawn_inv (s : DailySched) (now : DateTime) (delta : Int)
    (hsp : (_check_daily_schedule s now delta).2 = true) :
    (dailyWindow s.startM s.endM now).1 ≤ now.toMin ∧
    now.toMin ≤ (dailyWindow s.startM s.endM now).2 ∧
    (_check_daily_schedule s now delta).1 =
      { s with status := SchedStatus.active,
               next_check := some (min (now.toMin + delta)
                 (dailyWindow s.startM s.endM now).2) } := by
  by_cases hw : (dailyWindow s.startM s.endM now).1 ≤ now.toMin ∧
      now.toMin ≤ (dailyWindow s.startM s.endM now).2
  · by_cases hd : s.status = SchedStatus.download_started
    · simp [_check_daily_schedule, hw.1, hw.2, hd] at hsp
    · by_cases hdue : s.status = SchedStatus.pending ∨ due s.next_check now.toMin
      · refine ⟨hw.1, hw.2, ?_⟩
        simp [_check_daily_schedule, hw.1, hw.2, hd, hdue,
          _update_next_check_daily, nextCheckDaily, not_lt.mpr hw.1]
      · simp [_check_daily_schedule, hw.1, hw.2, hd, hdue] at hsp
  · by_cases hb : now.toMin < (dailyWindow s.startM s.endM now).1
    · by_cases hnc : s.next_check = some (dailyWindow s.startM s.endM now).1
      · simp [_check_daily_schedule, hw, hb, hnc] at hsp
      · simp [_check_daily_schedule, hw, hb, hnc] at hsp
    · by_cases hd : s.status = SchedStatus.download_started
      · simp [_check_daily_schedule, hw, hb, hd] at hsp
      · simp [_check_daily_schedule, hw, hb, hd] at hsp

/-- C3 counterexample: a pending non-daily schedule with window `[0, 20]`
(minutes) spawns at `t = 0` (re-arming `next_check` at `0 + 5`) and spawns
again at `t = 6` with no worker report in between; a pending daily
schedule with window 10:00–11:00 likewise spawns at 10:00 and again at
10:06.  Both ticks fall in one window occurrence, so "exactly one worker
per window occurrence" fails on both dispatch paths. -/
theorem C3_counterexample :
    (_check_schedule_regular ⟨SchedStatus.pending, some 0, 0, 20, false⟩ 0 5).2 = true ∧
    (_check_schedule_regular
        (_check_schedule_regular ⟨SchedStatus.pending, some 0, 0, 20, false⟩ 0 5).1
        6 5).2 = true ∧
    (0 : Int) ≤ 0 ∧ (6 : Int) ≤ 20 ∧
    (_check_daily_schedule ⟨SchedStatus.pending, some 600, none, 600, 660⟩ ⟨0, 600⟩ 5).2 =
      true ∧
    (_check_daily_schedule
        (_check_daily_schedule ⟨SchedStatus.pending, some 600, none, 600, 660⟩
          ⟨0, 600⟩ 5).1
        ⟨0, 606⟩ 5).2 = true := by
  decide

/-- C3 (amended): on both dispatch paths of `_check_schedules` — the
non-daily branch and `_check_daily_schedule` — the synchronous
`next_check` recomputation inside `_perform_check` prevents a second
spawn only until the recomputed `next_check` (`min (now + delta) end`,
with `delta` the drawn 5–8 minute delay) falls due: after a spawning tick
at `now`, no tick strictly between `now` and that value spawns again; and
once the worker reports `download_started`, no tick spawns at all.
(Later ticks at or past the recomputed `next_check` inside a long window
do spawn again, on either path, as the counterexample shows.) -/
theorem C3_amended_no_spawn_before_recheck :
    (∀ (s : Sched) (now delta now2 delta2 : Int),
      (_check_schedule_regular s now delta).2 = true →
      now < now2 →
      now2 < min (now + delta) s.end_time →
      (_check_schedule_regular (_check_schedule_regular s now delta).1 now2 delta2).2 =
        false) ∧
    (∀ (s : DailySched) (now now2 : DateTime) (delta delta2 : Int),
      0 ≤ s.startM → s.startM < 1440 → 0 ≤ s.endM → s.endM < 1440 →
      0 ≤ now.tod → now.tod < 1440 → 0 ≤ now2.tod → now2.tod < 1440 →
      (_check_daily_schedule s now delta).2 = true →
      now.toMin < now2.toMin →
      now2.toMin < min (now.toMin + delta) (dailyWindow s.startM s.endM now).2 →
      (_check_daily_schedule (_check_daily_schedule s now delta).1 now2 delta2).2 =
        false) ∧
    (∀ (s : Sched) (now delta : Int),
      s.status = SchedStatus.download_started →
      (_check_schedule_regular s now delta).2 = false) ∧
    (∀ (s : DailySched) (now : DateTime) (delta : Int),
      s.status = SchedStatus.download_started →
      (_check_daily_schedule s now delta).2 = false) := by
  refine ⟨?_, ?_, ?_, ?_⟩
  · intro s now delta now2 delta2 hsp h1 h2
    obtain ⟨hs1, -, heq⟩ := check_regular_spawn_inv s now delta hsp
    have hend : now2 ≤ s.end_time := le_of_lt (lt_of_lt_of_le h2 (min_le_right _ _))
    have hstart2 : s.start_time ≤ now2 := le_of_lt (lt_of_le_of_lt hs1 h1)
    have hnotdue : ¬ (min (now + delta) s.end_time ≤ now2) := not_le.mpr h2
    rw [heq]
    simp [_check_schedule_regular, due, hstart2, hend, not_lt.mpr hend, hnotdue]
  · intro s now now2 delta delta2 hsm0 hsm1 hem0 hem1 htod0 htod1 h2tod0 h2tod1 hsp h1 h2
    obtain ⟨hw1, -, heq⟩ := check_daily_spawn_inv s now delta hsp
    have hin1 : (dailyWindow s.startM s.endM now).1 ≤ now2.toMin :=
      le_of_lt (lt_of_le_of_lt hw1 h1)
    have hin2 : now2.toMin ≤ (dailyWindow s.startM s.endM now).2 :=
      le_of_lt (lt_of_lt_of_le h2 (min_le_right _ _))
    have hstable : dailyWindow s.startM s.endM now2 = dailyWindow s.startM s.endM now :=
      dailyWindow_stable s.startM s.endM now now2 hsm0 hsm1 hem0 hem1
        htod0 htod1 h2tod0 h2tod1 hin1 hin2
    have hnotdue : ¬ (min (now.toMin + delta) (dailyWindow s.startM s.endM now).2 ≤
        now2.toMin) := not_le.mpr h2
    rw [heq]
    simp [_check_daily_schedule, due, hstable, hin1, hin2, hnotdue]
  · intro s now delta h
    by_cases he : s.end_time < now
    · by_cases hr : s.repeatWeekly = true
      · simp [_check_schedule_regular, h, he, hr]
      · simp [_check_schedule_regular, h, he, hr]
    · by_cases hw : s.start_time ≤ now ∧ now ≤ s.end_time
      · simp [_check_schedule_regular, h, he, hw.1, hw.2]
      · by_cases hnc : s.next_check = some s.start_time
        · simp [_check_schedule_regular, h, he, hw, hnc]
        · simp [_check_schedule_regular, h, he, hw, hnc]
  · intro s now delta h
    by_cases hw : (dailyWindow s.startM s.endM now).1 ≤ now.toMin ∧
        now.toMin ≤ (dailyWindow s.startM s.endM now).2
    · simp [_check_daily_schedule, hw.1, hw.2, h]
    · by_cases hb : now.toMin < (dailyWindow s.startM s.endM now).1
      · by_cases hnc : s.next_check = some (dailyWindow s.startM s.endM now).1
        · simp [_check_daily_schedule, hw, hb, hnc]
        · simp [_check_daily_schedule, hw, hb, hnc]
      · simp [_check_daily_schedule, hw, hb, h]

/-- C3 witness: after the non-daily spawn at `t = 0` with a 5-minute
delay, the tick at `t = 3` does not spawn; after the daily 10:00 spawn,
the 10:03 tick does not spawn; and a `download_started` schedule never
spawns on either path. -/
theorem C3_witness :
    (_check_schedule_regular
        (_check_schedule_regular ⟨SchedStatus.pending, some 0, 0, 20, false⟩ 0 5).1
        3 7).2 = false ∧
    (_check_daily_schedule
        (_check_daily_schedule ⟨SchedStatus.pending, some 600, none, 600, 660⟩
          ⟨0, 600⟩ 5).1
        ⟨0, 603⟩ 7).2 = false ∧
    (_check_schedule_regular ⟨SchedStatus.download_started, none, 0, 20, false⟩ 10 5).2 =
      false ∧
    (_check_daily_schedule ⟨SchedStatus.download_started, none, none, 600, 660⟩
        ⟨0, 630⟩ 5).2 = false :=
  ⟨C3_amended_no_spawn_before_recheck.1 ⟨SchedStatus.pending, some 0, 0, 20, false⟩ 0 5 3 7
      (by decide) (by decide) (by decide),
   C3_amended_no_spawn_before_recheck.2.1 ⟨SchedStatus.pending, some 600, none, 600, 660⟩
      ⟨0, 600⟩ ⟨0, 603⟩ 5 7 (by decide) (by decide) (by decide) (by decide) (by decide)
      (by decide) (by decide) (by decide) (by decide) (by decide) (by decide),
   C3_amended_no_spawn_before_recheck.2.2.1
      ⟨SchedStatus.download_started, none, 0, 20, false⟩ 10 5 rfl,
   C3_amended_no_spawn_before_recheck.2.2.2
      ⟨SchedStatus.download_started, none, none, 600, 660⟩ ⟨0, 630⟩ 5 rfl⟩

end FfmpegDL
